import Mathlib

/-!
Shallow embedding of `tcp_epoll_server.cpp` (single-file TCP epoll relay server).

The dispatcher of `TCP_Server::event_worker` is modelled as a step function on an
explicit server state, parameterised by oracles for the outcomes of the system
calls (`read`, `accept`, `fcntl`, `epoll_ctl`).  The observable effects of one
dispatch step (closes, writes, accept attempts) are recorded as an `Action`
trace, in the order the corresponding calls occur in the source.
-/

namespace TcpEpollServer

/-- Bytes of the ASCII sentinel compared by `memcmp("quit", &bufin, 4)`:
`q` = 113, `u` = 117, `i` = 105, `t` = 116. -/
def quitBytes : List Nat := [113, 117, 105, 116]

/-- The bits of `events[i].events` that the dispatcher inspects
(`EPOLLERR`, `EPOLLHUP`, `EPOLLRDHUP`, `EPOLLIN`).  `EPOLLRDHUP` is armed by the
source but never tested on its own, matching lines 269-271. -/
structure EvMask where
  err : Bool
  hup : Bool
  rdhup : Bool
  inb : Bool
deriving DecidableEq, Repr

/-- Outcomes of the per-accept system calls inside `accept_connection`:
whether `make_socket_nonblocking` succeeds and whether `epoll_ctl(ADD)` succeeds. -/
structure AcceptEnv where
  nonblockOk : Bool
  epollAddOk : Bool
deriving DecidableEq, Repr

/-- One entry of the epoll event batch, together with the oracles telling what
the system calls performed while handling it return.  `readData = some bs` means
`read` returns `bs.length > 0` bytes `bs`; `none` means `read` returned `<= 0`. -/
structure EvInput where
  fd : Nat
  mask : EvMask
  readData : Option (List Nat)
  aenv : AcceptEnv
deriving DecidableEq, Repr

/-- Observable descriptor-level effects of the dispatcher, in program order. -/
inductive Action where
  | close (fd : Nat)
  | write (fd : Nat) (data : List Nat)
  | sysAccept
  | setNonblock (fd : Nat)
  | setNonblockFail (fd : Nat)
  | epollAdd (fd : Nat)
  | epollAddFail (fd : Nat)
deriving DecidableEq, Repr

/-- The dispatcher-owned state: `client_fd_list` is the member vector of
`TCP_Server`; `pending` models the kernel queue of connections pending on the
listener, consumed one at a time by `accept`. -/
structure ServerSt where
  client_fd_list : List Nat
  pending : List Nat
deriving DecidableEq, Repr

/-- Model of `TCP_Server::accept_connection` (lines 190-230).  `accept` pops one
pending connection (empty queue models `EAGAIN`/`EWOULDBLOCK`, returning -1).
On `make_socket_nonblocking` failure the function returns -1 WITHOUT closing the
accepted descriptor; on `epoll_ctl` failure likewise.  Returns the result value,
the remaining pending queue and the action trace. -/
def accept_connection (pending : List Nat) (aenv : AcceptEnv) :
    Int × List Nat × List Action :=
  match pending with
  | [] => (-1, [], [Action.sysAccept])
  | infd :: rest =>
    if aenv.nonblockOk = false then
      (-1, rest, [Action.sysAccept, Action.setNonblockFail infd])
    else if aenv.epollAddOk = false then
      (-1, rest, [Action.sysAccept, Action.setNonblock infd, Action.epollAddFail infd])
    else
      ((infd : Int), rest, [Action.sysAccept, Action.setNonblock infd, Action.epollAdd infd])

/-- Model of the per-event body of the dispatch loop of
`TCP_Server::event_worker` (lines 269-320).

* error branch (269-275): `EPOLLERR` set, or `EPOLLHUP` set, or `EPOLLIN`
  clear: `close(fd)` only — the registry is not touched and the loop is not
  exited, even for the listener;
* listener branch (276-281): one call of `accept_connection`; the result is
  appended to `client_fd_list` when it is `> 0`;
* client branch (283-319): one `read`; on `size > 0` either the quit path
  (`size == 6` and first four bytes `quit`: erase from the list, then close) or
  the fan-out over every `sendfd != fd` of the list; on `size <= 0` erase and
  close. -/
def dispatchEvent (listener : Nat) (st : ServerSt) (ev : EvInput) :
    ServerSt × List Action :=
  if ev.mask.err || ev.mask.hup || !ev.mask.inb then
    (st, [Action.close ev.fd])
  else if ev.fd = listener then
    let r := accept_connection st.pending ev.aenv
    if r.1 > 0 then
      ({ st with pending := r.2.1,
                 client_fd_list := st.client_fd_list ++ [r.1.toNat] }, r.2.2)
    else
      ({ st with pending := r.2.1 }, r.2.2)
  else
    match ev.readData with
    | some bs =>
      if bs.length = 6 ∧ bs.take 4 = quitBytes then
        ({ st with client_fd_list := st.client_fd_list.erase ev.fd },
         [Action.close ev.fd])
      else
        (st, (st.client_fd_list.filter (fun c => c ≠ ev.fd)).map
               (fun c => Action.write c bs))
    | none =>
      ({ st with client_fd_list := st.client_fd_list.erase ev.fd },
       [Action.close ev.fd])

/-- The inner `for` loop over one batch of epoll events (lines 265-321). -/
def processBatch (listener : Nat) : ServerSt → List EvInput → ServerSt × List Action
  | st, [] => (st, [])
  | st, ev :: evs =>
    let r := dispatchEvent listener st ev
    let r2 := processBatch listener r.1 evs
    (r2.1, r.2 ++ r2.2)

/-- One iteration of the `while` loop: the value of `isRunning` observed at the
loop head, and the batch `epoll_wait` returns (empty batch models a timeout). -/
structure LoopIter where
  running : Bool
  batch : List EvInput
deriving DecidableEq, Repr

/-- The `while ( isRunning.load(...) )` loop (lines 259-323): stops as soon as
the flag reads false, otherwise processes the batch and continues. -/
def runLoop (listener : Nat) : ServerSt → List LoopIter → ServerSt × List Action
  | st, [] => (st, [])
  | st, it :: rest =>
    if it.running = false then (st, [])
    else
      let r := processBatch listener st it.batch
      let r2 := runLoop listener r.1 rest
      (r2.1, r.2 ++ r2.2)

/-- The shutdown tail of `event_worker` (lines 325-329): only
`close(socketfd)` and `close(epollfd)` are performed — the registered client
descriptors are not closed and `client_fd_list` is not cleared. -/
def event_worker_shutdown (listenfd epollfd : Nat) (st : ServerSt) :
    ServerSt × List Action :=
  (st, [Action.close listenfd, Action.close epollfd])

/-- A whole run of `event_worker` after successful setup: the dispatch loop
followed by the shutdown tail. -/
def event_worker_run (listenfd epollfd : Nat) (st : ServerSt)
    (script : List LoopIter) : ServerSt × List Action :=
  let r := runLoop listenfd st script
  let r2 := event_worker_shutdown listenfd epollfd r.1
  (r2.1, r.2 ++ r2.2)

/-- The fds written to by a trace, in order. -/
def writeTarget : Action → Option Nat
  | Action.write fd _ => some fd
  | _ => none

/-- The fds successfully armed by `epoll_ctl(ADD)` in a trace, in order
(these are the accepted clients, in acceptance order). -/
def acceptedOf (tr : List Action) : List Nat :=
  tr.filterMap (fun a => match a with | Action.epollAdd fd => some fd | _ => none)

/-- Oracles for the outcomes of the startup system calls, plus the
indeterminate initial values of the two default-constructed `atomic<bool>`
members (they are stored to only on the paths that reach
`start_event_worker`). -/
structure StartupEnv where
  socketRet : Int
  hostIsWildcardName : Bool
  resolveOk : Bool
  bindOk : Bool
  listenOk : Bool
  epollCreateOk : Bool
  epollCtlOk : Bool
  isRunningIndet : Bool
  workerStateIndet : Bool
deriving DecidableEq, Repr

/-- Model of `TCP_Server::create_and_bind` (lines 128-171).  Note the source
compares the `socket` return against 0 (not -1): a genuine -1 failure passes
the check and only fails later at `bind`.  `gethostbyname` runs only when the
host string differs from the literal `INADDR_ANY`. -/
def create_and_bind (e : StartupEnv) : Int :=
  if e.socketRet = 0 then -1
  else if e.hostIsWildcardName = false ∧ e.resolveOk = false then -1
  else if e.bindOk = false then -1
  else 0

/-- The flags of `TCP_Server` observable to the caller after construction and
the startup prefix of the worker: whether the worker thread was launched, the
value of `isRunning` and the value of `worker_state`. -/
structure ServerObs where
  threadStarted : Bool
  isRunningFlag : Bool
  worker_state : Bool
deriving DecidableEq, Repr

/-- Model of the constructor (lines 106-120) composed with `start_event_worker`
(lines 332-339) and the setup prefix of `event_worker` (lines 236-257): when
`create_and_bind` fails the worker is never started and both atomics keep their
indeterminate initial values; otherwise `start_event_worker` stores
`worker_state := false` and `isRunning := true` before launching the thread,
and the thread publishes `worker_state := true` only after `listen`,
`epoll_create1` and `epoll_ctl` have all succeeded (on any of those failures it
returns at once, leaving `isRunning` true). -/
def tcp_server_startup (e : StartupEnv) : ServerObs :=
  if create_and_bind e ≠ 0 then
    { threadStarted := false, isRunningFlag := e.isRunningIndet,
      worker_state := e.workerStateIndet }
  else if e.listenOk = false then
    { threadStarted := true, isRunningFlag := true, worker_state := false }
  else if e.epollCreateOk = false then
    { threadStarted := true, isRunningFlag := true, worker_state := false }
  else if e.epollCtlOk = false then
    { threadStarted := true, isRunningFlag := true, worker_state := false }
  else
    { threadStarted := true, isRunningFlag := true, worker_state := true }

/-- Model of `TCP_Server::isAlive` (line 80): it returns the `isRunning`
command flag, not `worker_state`. -/
def isAlive (o : ServerObs) : Bool := o.isRunningFlag

/-- The operations performed on the destruction path. -/
inductive DtorStep where
  | storeIsRunningFalse
  | joinThread
deriving DecidableEq, Repr

/-- Model of `TCP_Server::stop_event_worker` (lines 341-347): store false to
`isRunning`, then unconditionally `epoll_worker.join()`. -/
def stop_event_worker_trace : List DtorStep :=
  [DtorStep.storeIsRunningFalse, DtorStep.joinThread]

/-- Model of the destructor `~TCP_Server` (lines 124-126): it calls
`stop_event_worker` unconditionally — the trace does not depend on whether the
worker thread was ever started, because the source never tests
`epoll_worker.joinable()`. -/
def tcp_server_destructor_trace (_threadStarted : Bool) : List DtorStep :=
  stop_event_worker_trace

/-- Counting a write action in a mapped write list counts the target fd. -/
theorem count_write_map (l : List Nat) (bs : List Nat) (c : Nat) :
    ((l.map (fun r => Action.write r bs)).count (Action.write c bs)) = l.count c := by
  induction l with
  | nil => rfl
  | cons a t ih =>
    by_cases h : c = a
    · subst h
      simp [List.count_cons, ih]
    · simp [List.count_cons, ih, h, Action.write.injEq]

/-- On a readable non-listener event carrying a non-quit payload, the dispatcher
broadcasts: state unchanged, one write per registry member other than the
sender, in registry order. -/
theorem dispatch_broadcast_eq (listener fd : Nat) (st : ServerSt) (bs : List Nat)
    (rdhup : Bool) (aenv : AcceptEnv)
    (hfd : fd ≠ listener)
    (hq : ¬ (bs.length = 6 ∧ bs.take 4 = quitBytes)) :
    dispatchEvent listener st ⟨fd, ⟨false, false, rdhup, true⟩, some bs, aenv⟩
      = (st, (st.client_fd_list.filter (fun c => c ≠ fd)).map
               (fun c => Action.write c bs)) := by
  simp [dispatchEvent, hfd, hq]

/-- C1: for every read on a ready client descriptor `S` returning `size > 0`
bytes that are not the quit sentinel, the dispatcher performs exactly one write
of those bytes to every client currently in the registry other than `S`, and no
write to `S` itself (the state is unchanged, so the registry at fan-out time is
the current one). -/
theorem C1_fanout_exclusion (listener fd : Nat) (st : ServerSt) (bs : List Nat)
    (rdhup : Bool) (aenv : AcceptEnv)
    (hfd : fd ≠ listener) (_hlen : 0 < bs.length)
    (hq : ¬ (bs.length = 6 ∧ bs.take 4 = quitBytes))
    (hnd : st.client_fd_list.Nodup) :
    (dispatchEvent listener st ⟨fd, ⟨false, false, rdhup, true⟩, some bs, aenv⟩).1 = st ∧
    (∀ c ∈ st.client_fd_list, c ≠ fd →
      ((dispatchEvent listener st ⟨fd, ⟨false, false, rdhup, true⟩, some bs, aenv⟩).2.count
        (Action.write c bs)) = 1) ∧
    (∀ d : List Nat,
      Action.write fd d ∉
        (dispatchEvent listener st ⟨fd, ⟨false, false, rdhup, true⟩, some bs, aenv⟩).2) := by
  rw [dispatch_broadcast_eq listener fd st bs rdhup aenv hfd hq]
  refine ⟨rfl, ?_, ?_⟩
  · intro c hc hcfd
    rw [count_write_map]
    exact List.count_eq_one_of_mem (hnd.filter _)
      (List.mem_filter.2 ⟨hc, by simp [hcfd]⟩)
  · intro d hmem
    rcases List.mem_map.1 hmem with ⟨r, hr, he⟩
    rcases List.mem_filter.1 hr with ⟨hrl, hrne⟩
    injection he with h1 h2
    simp [h1] at hrne

/-- C1 witness: concrete fan-out of payload `hi` from client 5 with registry
`[4, 5, 6]`. -/
theorem C1_fanout_exclusion_witness :
    (dispatchEvent 3 ⟨[4, 5, 6], []⟩
        ⟨5, ⟨false, false, false, true⟩, some [104, 105], ⟨true, true⟩⟩).1
      = ⟨[4, 5, 6], []⟩ ∧
    (∀ c ∈ ([4, 5, 6] : List Nat), c ≠ 5 →
      ((dispatchEvent 3 ⟨[4, 5, 6], []⟩
          ⟨5, ⟨false, false, false, true⟩, some [104, 105], ⟨true, true⟩⟩).2.count
        (Action.write c [104, 105])) = 1) ∧
    (∀ d : List Nat,
      Action.write 5 d ∉
        (dispatchEvent 3 ⟨[4, 5, 6], []⟩
          ⟨5, ⟨false, false, false, true⟩, some [104, 105], ⟨true, true⟩⟩).2) :=
  C1_fanout_exclusion 3 5 ⟨[4, 5, 6], []⟩ [104, 105] false ⟨true, true⟩
    (by decide) (by decide) (by decide) (by decide)

/-- C2: on a read of `size > 0` bytes from a ready client, the payload triggers
close-and-unregister (with no broadcast) if and only if it is exactly 6 bytes
whose first four are `quit`; any other payload, including the 4-byte `quit`,
is broadcast with the registry unchanged. -/
theorem C2_quit_sentinel (listener fd : Nat) (st : ServerSt) (bs : List Nat)
    (rdhup : Bool) (aenv : AcceptEnv)
    (hfd : fd ≠ listener) (_hlen : 0 < bs.length) :
    ((bs.length = 6 ∧ bs.take 4 = quitBytes) →
      dispatchEvent listener st ⟨fd, ⟨false, false, rdhup, true⟩, some bs, aenv⟩
        = ({ st with client_fd_list := st.client_fd_list.erase fd },
           [Action.close fd])) ∧
    (¬ (bs.length = 6 ∧ bs.take 4 = quitBytes) →
      dispatchEvent listener st ⟨fd, ⟨false, false, rdhup, true⟩, some bs, aenv⟩
        = (st, (st.client_fd_list.filter (fun c => c ≠ fd)).map
                 (fun c => Action.write c bs))) ∧
    (Action.close fd ∈
        (dispatchEvent listener st ⟨fd, ⟨false, false, rdhup, true⟩, some bs, aenv⟩).2
      ↔ (bs.length = 6 ∧ bs.take 4 = quitBytes)) := by
  by_cases hq : bs.length = 6 ∧ bs.take 4 = quitBytes
  · have hd : dispatchEvent listener st ⟨fd, ⟨false, false, rdhup, true⟩, some bs, aenv⟩
        = ({ st with client_fd_list := st.client_fd_list.erase fd },
           [Action.close fd]) := by
      simp [dispatchEvent, hfd, hq]
    refine ⟨fun _ => hd, fun h => absurd hq h, ?_⟩
    rw [hd]
    simp [hq]
  · have hd := dispatch_broadcast_eq listener fd st bs rdhup aenv hfd hq
    refine ⟨fun h => absurd h hq, fun _ => hd, ?_⟩
    rw [hd]
    constructor
    · intro hmem
      rcases List.mem_map.1 hmem with ⟨c, hc, he⟩
      exact absurd he (by simp)
    · intro h
      exact absurd h hq

/-- C2 witness: the 4-byte payload `quit` from client 5 is broadcast, not
treated as a sentinel. -/
theorem C2_quit_sentinel_witness :
    ((([113, 117, 105, 116] : List Nat).length = 6 ∧
        ([113, 117, 105, 116] : List Nat).take 4 = quitBytes) →
      dispatchEvent 3 ⟨[4, 5], []⟩
          ⟨5, ⟨false, false, false, true⟩, some [113, 117, 105, 116], ⟨true, true⟩⟩
        = ({ client_fd_list := ([4, 5] : List Nat).erase 5, pending := [] },
           [Action.close 5])) ∧
    (¬ (([113, 117, 105, 116] : List Nat).length = 6 ∧
        ([113, 117, 105, 116] : List Nat).take 4 = quitBytes) →
      dispatchEvent 3 ⟨[4, 5], []⟩
          ⟨5, ⟨false, false, false, true⟩, some [113, 117, 105, 116], ⟨true, true⟩⟩
        = (⟨[4, 5], []⟩, (([4, 5] : List Nat).filter (fun c => c ≠ 5)).map
             (fun c => Action.write c [113, 117, 105, 116]))) ∧
    (Action.close 5 ∈
        (dispatchEvent 3 ⟨[4, 5], []⟩
          ⟨5, ⟨false, false, false, true⟩, some [113, 117, 105, 116], ⟨true, true⟩⟩).2
      ↔ (([113, 117, 105, 116] : List Nat).length = 6 ∧
        ([113, 117, 105, 116] : List Nat).take 4 = quitBytes)) :=
  C2_quit_sentinel 3 5 ⟨[4, 5], []⟩ [113, 117, 105, 116] false ⟨true, true⟩
    (by decide) (by decide)

/-- C3: exhibit of the divergence.  Iteration 1 delivers a hangup-style error
event for registered client 5 and then an error event for the listener (fd 3);
the dispatcher only closes them: client 5 stays in the registry, and the loop
is not exited — iteration 2 still runs and broadcasts the payload of client 6,
writing it to the already-closed descriptor 5. -/
theorem C3_terminal_no_unregister_no_exit :
    runLoop 3 ⟨[5, 6], []⟩
        [⟨true, [⟨5, ⟨true, false, false, false⟩, none, ⟨true, true⟩⟩,
                 ⟨3, ⟨true, false, false, false⟩, none, ⟨true, true⟩⟩]⟩,
         ⟨true, [⟨6, ⟨false, false, false, true⟩, some [104, 105], ⟨true, true⟩⟩]⟩]
      = (⟨[5, 6], []⟩,
         [Action.close 5, Action.close 3, Action.write 5 [104, 105]]) := by
  rfl

/-- C4: exhibit of the broken invariant.  At the loop boundary after a batch
holding a hangup event for registered client 7, descriptor 7 has been closed
yet is still a member of `client_fd_list`. -/
theorem C4_closed_fd_remains_registered :
    runLoop 3 ⟨[7], []⟩
        [⟨true, [⟨7, ⟨false, true, false, true⟩, none, ⟨true, true⟩⟩]⟩]
      = (⟨[7], []⟩, [Action.close 7]) := by
  rfl

/-- C5 counterexample: with two connections pending on the listener, a single
listener readiness dispatch performs exactly one accept — connection 8 stays
pending and unregistered, refuting a repeat-until-drained burst. -/
theorem C5_accept_burst_counterexample :
    dispatchEvent 3 ⟨[], [7, 8]⟩ ⟨3, ⟨false, false, false, true⟩, none, ⟨true, true⟩⟩
        = (⟨[7], [8]⟩, [Action.sysAccept, Action.setNonblock 7, Action.epollAdd 7]) ∧
    (dispatchEvent 3 ⟨[], [7, 8]⟩
        ⟨3, ⟨false, false, false, true⟩, none, ⟨true, true⟩⟩).2.count Action.sysAccept = 1 := by
  decide

/-- C6 counterexample: a run that observes the shutdown flag with client 5
still registered closes only the listener (3) and the epoll descriptor (10);
client 5 is never closed and the registry is left non-empty. -/
theorem C6_shutdown_counterexample :
    event_worker_run 3 10 ⟨[5], []⟩ [⟨false, []⟩]
        = (⟨[5], []⟩, [Action.close 3, Action.close 10]) ∧
    Action.close 5 ∉ (event_worker_run 3 10 ⟨[5], []⟩ [⟨false, []⟩]).2 := by
  decide

/-- C7: exhibit of the divergence.  When `listen` fails (or `epoll_create1`
fails), the worker thread exits before publishing online (`worker_state` stays
false), yet `isAlive` returns true, because it reads the `isRunning` command
flag that `start_event_worker` set before launching the thread; only a
`create_and_bind` failure prevents the thread from starting. -/
theorem C7_liveness_check_reports_alive :
    (tcp_server_startup ⟨4, false, true, true, false, true, true, false, false⟩).worker_state
        = false ∧
    isAlive (tcp_server_startup ⟨4, false, true, true, false, true, true, false, false⟩)
        = true ∧
    (tcp_server_startup ⟨4, false, true, true, true, false, true, false, false⟩).worker_state
        = false ∧
    isAlive (tcp_server_startup ⟨4, false, true, true, true, false, true, false, false⟩)
        = true ∧
    (tcp_server_startup ⟨4, false, true, false, true, true, true, false, false⟩).threadStarted
        = false := by
  decide

/-- C8 counterexample: when `make_socket_nonblocking` fails on accepted
descriptor 7, `accept_connection` returns -1 without ever closing 7 — the
descriptor is leaked, not closed. -/
theorem C8_nonblock_failure_leaks_descriptor :
    accept_connection [7] ⟨false, true⟩
        = (-1, [], [Action.sysAccept, Action.setNonblockFail 7]) ∧
    Action.close 7 ∉ (accept_connection [7] ⟨false, true⟩).2.2 := by
  decide

/-- C10: the destructor path always performs the join: even for a construction
that failed at bind (so the worker thread was never started), the destruction
trace is the unconditional `stop_event_worker` sequence ending in
`epoll_worker.join()`, with no joinable guard (the trace does not depend on
whether the thread started). -/
theorem C10_destructor_joins_unconditionally :
    (tcp_server_startup ⟨4, false, true, false, true, true, true, false, false⟩).threadStarted
        = false ∧
    (∀ b : Bool, tcp_server_destructor_trace b
        = [DtorStep.storeIsRunningFalse, DtorStep.joinThread]) ∧
    DtorStep.joinThread ∈ tcp_server_destructor_trace false := by
  decide

/-- C5 (amended): on a readiness event for the listener the dispatcher invokes
the accept helper exactly once, accepting at most one pending connection: with
an empty pending queue the state is unchanged, and with a pending connection
the queue shrinks by one and the registry either gains exactly that descriptor
(successful accept) or is unchanged (failed accept — the failure does not stop
the dispatcher). -/
theorem C5_accept_once (listener : Nat) (st : ServerSt) (rdhup : Bool)
    (rd : Option (List Nat)) (aenv : AcceptEnv) :
    (dispatchEvent listener st ⟨listener, ⟨false, false, rdhup, true⟩, rd, aenv⟩).2.count
        Action.sysAccept = 1 ∧
    (st.pending = [] →
      dispatchEvent listener st ⟨listener, ⟨false, false, rdhup, true⟩, rd, aenv⟩
        = (st, [Action.sysAccept])) ∧
    (∀ infd rest, st.pending = infd :: rest →
      (dispatchEvent listener st ⟨listener, ⟨false, false, rdhup, true⟩, rd, aenv⟩).1.pending
          = rest ∧
      ((dispatchEvent listener st
            ⟨listener, ⟨false, false, rdhup, true⟩, rd, aenv⟩).1.client_fd_list
          = st.client_fd_list ∨
       (dispatchEvent listener st
            ⟨listener, ⟨false, false, rdhup, true⟩, rd, aenv⟩).1.client_fd_list
          = st.client_fd_list ++ [infd])) := by
  obtain ⟨cl, pe⟩ := st
  obtain ⟨nb, ea⟩ := aenv
  cases pe with
  | nil =>
    refine ⟨by simp [dispatchEvent, accept_connection], fun _ => ?_, ?_⟩
    · simp [dispatchEvent, accept_connection]
    · intro infd rest h
      cases h
  | cons infd rest =>
    cases nb
    · refine ⟨by simp [dispatchEvent, accept_connection, List.count_cons], fun h => ?_, ?_⟩
      · cases h
      · intro i r h
        injection h with h1 h2
        subst h1; subst h2
        constructor
        · simp [dispatchEvent, accept_connection]
        · left
          simp [dispatchEvent, accept_connection]
    · cases ea
      · refine ⟨by simp [dispatchEvent, accept_connection, List.count_cons], fun h => ?_, ?_⟩
        · cases h
        · intro i r h
          injection h with h1 h2
          subst h1; subst h2
          constructor
          · simp [dispatchEvent, accept_connection]
          · left
            simp [dispatchEvent, accept_connection]
      · cases infd with
        | zero =>
          refine ⟨by simp [dispatchEvent, accept_connection, List.count_cons], fun h => ?_, ?_⟩
          · cases h
          · intro i r h
            injection h with h1 h2
            subst h1; subst h2
            constructor
            · simp [dispatchEvent, accept_connection]
            · left
              simp [dispatchEvent, accept_connection]
        | succ n =>
          refine ⟨by simp [dispatchEvent, accept_connection, List.count_cons], fun h => ?_, ?_⟩
          · cases h
          · intro i r h
            injection h with h1 h2
            subst h1; subst h2
            constructor
            · simp [dispatchEvent, accept_connection]
            · right
              simp [dispatchEvent, accept_connection]

/-- C5 witness: one pending connection (fd 7), all per-accept calls succeed. -/
theorem C5_accept_once_witness :
    (dispatchEvent 3 ⟨[4], [7]⟩ ⟨3, ⟨false, false, false, true⟩, none, ⟨true, true⟩⟩).2.count
        Action.sysAccept = 1 ∧
    (([7] : List Nat) = [] →
      dispatchEvent 3 ⟨[4], [7]⟩ ⟨3, ⟨false, false, false, true⟩, none, ⟨true, true⟩⟩
        = (⟨[4], [7]⟩, [Action.sysAccept])) ∧
    (∀ infd rest, ([7] : List Nat) = infd :: rest →
      (dispatchEvent 3 ⟨[4], [7]⟩
          ⟨3, ⟨false, false, false, true⟩, none, ⟨true, true⟩⟩).1.pending = rest ∧
      ((dispatchEvent 3 ⟨[4], [7]⟩
          ⟨3, ⟨false, false, false, true⟩, none, ⟨true, true⟩⟩).1.client_fd_list = [4] ∨
       (dispatchEvent 3 ⟨[4], [7]⟩
          ⟨3, ⟨false, false, false, true⟩, none, ⟨true, true⟩⟩).1.client_fd_list
          = [4] ++ [infd])) :=
  C5_accept_once 3 ⟨[4], [7]⟩ false none ⟨true, true⟩

/-- C6 (amended): when the dispatch loop exits, the worker performs exactly the
close of the listener and the close of the epoll descriptor; it closes no other
descriptor in the shutdown tail, and leaves the registry exactly as the loop
left it — registered clients are neither closed nor removed by the worker. -/
theorem C6_shutdown_closes_only_listener_and_epoll (listenfd epollfd : Nat)
    (st : ServerSt) (script : List LoopIter) :
    (event_worker_run listenfd epollfd st script).1
        = (runLoop listenfd st script).1 ∧
    (event_worker_run listenfd epollfd st script).2
        = (runLoop listenfd st script).2
            ++ [Action.close listenfd, Action.close epollfd] ∧
    (∀ c : Nat, c ≠ listenfd → c ≠ epollfd →
      Action.close c ∉
        (event_worker_shutdown listenfd epollfd (runLoop listenfd st script).1).2) := by
  refine ⟨rfl, rfl, ?_⟩
  intro c h1 h2 hmem
  simp only [event_worker_shutdown, List.mem_cons, List.not_mem_nil] at hmem
  rcases hmem with h | h | h
  · exact h1 (by injection h)
  · exact h2 (by injection h)
  · exact h

/-- C6 witness: concrete shutdown with client 5 registered. -/
theorem C6_shutdown_closes_only_listener_and_epoll_witness :
    (event_worker_run 3 10 ⟨[5], []⟩ []).1 = (runLoop 3 ⟨[5], []⟩ []).1 ∧
    (event_worker_run 3 10 ⟨[5], []⟩ []).2
        = (runLoop 3 ⟨[5], []⟩ []).2 ++ [Action.close 3, Action.close 10] ∧
    (∀ c : Nat, c ≠ 3 → c ≠ 10 →
      Action.close c ∉ (event_worker_shutdown 3 10 (runLoop 3 ⟨[5], []⟩ []).1).2) :=
  C6_shutdown_closes_only_listener_and_epoll 3 10 ⟨[5], []⟩ []

/-- C8 (amended): on a listener readiness event, if setting non-blocking mode
on the accepted descriptor fails, the descriptor is never registered and NO
descriptor is closed (the accepted one is leaked); and whenever the registry
grows, it grows by exactly the accepted descriptor, whose trace shows
`make_socket_nonblocking` succeeding before `epoll_ctl(ADD)`, both before the
registry insertion. -/
theorem C8_nonblock_before_register (listener : Nat) (st : ServerSt) (rdhup : Bool)
    (rd : Option (List Nat)) (aenv : AcceptEnv) :
    (aenv.nonblockOk = false →
      (dispatchEvent listener st
          ⟨listener, ⟨false, false, rdhup, true⟩, rd, aenv⟩).1.client_fd_list
        = st.client_fd_list ∧
      (∀ c : Nat, Action.close c ∉
        (dispatchEvent listener st ⟨listener, ⟨false, false, rdhup, true⟩, rd, aenv⟩).2)) ∧
    ((dispatchEvent listener st
          ⟨listener, ⟨false, false, rdhup, true⟩, rd, aenv⟩).1.client_fd_list
        ≠ st.client_fd_list →
      ∃ a rest, st.pending = a :: rest ∧ aenv.nonblockOk = true ∧
        (dispatchEvent listener st ⟨listener, ⟨false, false, rdhup, true⟩, rd, aenv⟩).2
          = [Action.sysAccept, Action.setNonblock a, Action.epollAdd a] ∧
        (dispatchEvent listener st
            ⟨listener, ⟨false, false, rdhup, true⟩, rd, aenv⟩).1.client_fd_list
          = st.client_fd_list ++ [a]) := by
  obtain ⟨cl, pe⟩ := st
  obtain ⟨nb, ea⟩ := aenv
  cases pe with
  | nil =>
    refine ⟨fun _ => ⟨by simp [dispatchEvent, accept_connection], ?_⟩, fun h => ?_⟩
    · intro c
      simp [dispatchEvent, accept_connection]
    · exact absurd (by simp [dispatchEvent, accept_connection]) h
  | cons infd rest =>
    cases nb
    · refine ⟨fun _ => ⟨by simp [dispatchEvent, accept_connection], ?_⟩, fun h => ?_⟩
      · intro c
        simp [dispatchEvent, accept_connection]
      · exact absurd (by simp [dispatchEvent, accept_connection]) h
    · cases ea
      · refine ⟨fun h => Bool.noConfusion h, fun h => ?_⟩
        exact absurd (by simp [dispatchEvent, accept_connection]) h
      · cases infd with
        | zero =>
          refine ⟨fun h => Bool.noConfusion h, fun h => ?_⟩
          exact absurd (by simp [dispatchEvent, accept_connection]) h
        | succ n =>
          refine ⟨fun h => Bool.noConfusion h, fun _ => ?_⟩
          refine ⟨n + 1, rest, rfl, rfl, ?_, ?_⟩
          · simp [dispatchEvent, accept_connection]
          · simp [dispatchEvent, accept_connection]

/-- C8 witness: non-blocking toggle fails on accepted fd 7 — not registered,
nothing closed. -/
theorem C8_nonblock_before_register_witness :
    ((⟨false, true⟩ : AcceptEnv).nonblockOk = false →
      (dispatchEvent 3 ⟨[4], [7]⟩
          ⟨3, ⟨false, false, false, true⟩, none, ⟨false, true⟩⟩).1.client_fd_list = [4] ∧
      (∀ c : Nat, Action.close c ∉
        (dispatchEvent 3 ⟨[4], [7]⟩
          ⟨3, ⟨false, false, false, true⟩, none, ⟨false, true⟩⟩).2)) ∧
    ((dispatchEvent 3 ⟨[4], [7]⟩
          ⟨3, ⟨false, false, false, true⟩, none, ⟨false, true⟩⟩).1.client_fd_list ≠ [4] →
      ∃ a rest, ([7] : List Nat) = a :: rest ∧
        (⟨false, true⟩ : AcceptEnv).nonblockOk = true ∧
        (dispatchEvent 3 ⟨[4], [7]⟩
            ⟨3, ⟨false, false, false, true⟩, none, ⟨false, true⟩⟩).2
          = [Action.sysAccept, Action.setNonblock a, Action.epollAdd a] ∧
        (dispatchEvent 3 ⟨[4], [7]⟩
            ⟨3, ⟨false, false, false, true⟩, none, ⟨false, true⟩⟩).1.client_fd_list
          = [4] ++ [a]) :=
  C8_nonblock_before_register 3 ⟨[4], [7]⟩ false none ⟨false, true⟩

/-- Accepted-fd extraction distributes over trace concatenation. -/
theorem acceptedOf_append (l m : List Action) :
    acceptedOf (l ++ m) = acceptedOf l ++ acceptedOf m := by
  simp [acceptedOf, List.filterMap_append]

/-- A broadcast trace arms no descriptor. -/
theorem acceptedOf_write_map (l : List Nat) (bs : List Nat) :
    acceptedOf (l.map (fun c => Action.write c bs)) = [] := by
  induction l with
  | nil => rfl
  | cons a t ih => simpa [acceptedOf] using ih

/-- The fds written by a broadcast trace are exactly the filtered registry. -/
theorem filterMap_writeTarget_map (l : List Nat) (bs : List Nat) :
    (l.map (fun c => Action.write c bs)).filterMap writeTarget = l := by
  induction l with
  | nil => rfl
  | cons a t ih => simp [writeTarget, ih]

/-- One dispatch step keeps the registry an order-preserving sublist of the
previous registry followed by the newly accepted fds of its trace. -/
theorem dispatch_registry_sublist (listener : Nat) (st : ServerSt) (ev : EvInput) :
    List.Sublist (dispatchEvent listener st ev).1.client_fd_list
      (st.client_fd_list ++ acceptedOf (dispatchEvent listener st ev).2) := by
  obtain ⟨fd, ⟨er, hu, rdh, inb⟩, rdata, ⟨nb, ea⟩⟩ := ev
  obtain ⟨cl, pe⟩ := st
  cases er with
  | true => simpa [dispatchEvent, acceptedOf] using List.Sublist.refl cl
  | false =>
    cases hu with
    | true => simpa [dispatchEvent, acceptedOf] using List.Sublist.refl cl
    | false =>
      cases inb with
      | false => simpa [dispatchEvent, acceptedOf] using List.Sublist.refl cl
      | true =>
        by_cases hl : fd = listener
        · subst hl
          cases pe with
          | nil =>
            simpa [dispatchEvent, accept_connection, acceptedOf] using List.Sublist.refl cl
          | cons infd rest =>
            cases nb
            · simpa [dispatchEvent, accept_connection, acceptedOf] using List.Sublist.refl cl
            · cases ea
              · simpa [dispatchEvent, accept_connection, acceptedOf] using
                  List.Sublist.refl cl
              · cases infd with
                | zero =>
                  simpa [dispatchEvent, accept_connection, acceptedOf] using
                    List.sublist_append_left cl [0]
                | succ n =>
                  simpa [dispatchEvent, accept_connection, acceptedOf] using
                    List.Sublist.refl (cl ++ [n + 1])
        · cases rdata with
          | none =>
            simpa [dispatchEvent, hl, acceptedOf] using List.erase_sublist fd cl
          | some bs =>
            by_cases hq : bs.length = 6 ∧ bs.take 4 = quitBytes
            · simpa [dispatchEvent, hl, hq, acceptedOf] using List.erase_sublist fd cl
            · simpa [dispatchEvent, hl, hq, acceptedOf_write_map] using List.Sublist.refl cl

/-- Batch processing keeps the registry a sublist of the incoming registry
followed by the accepted fds of the batch trace, in acceptance order. -/
theorem processBatch_registry_sublist (listener : Nat) (evs : List EvInput) :
    ∀ st : ServerSt,
      List.Sublist (processBatch listener st evs).1.client_fd_list
        (st.client_fd_list ++ acceptedOf (processBatch listener st evs).2) := by
  induction evs with
  | nil =>
    intro st
    simpa [processBatch, acceptedOf] using List.Sublist.refl st.client_fd_list
  | cons ev evs ih =>
    intro st
    have h1 := dispatch_registry_sublist listener st ev
    have h2 := ih (dispatchEvent listener st ev).1
    simp only [processBatch]
    rw [acceptedOf_append, ← List.append_assoc]
    exact h2.trans (List.Sublist.append_right h1 _)

/-- Unfolding equation for a running loop iteration. -/
theorem runLoop_cons_true (listener : Nat) (st : ServerSt) (batch : List EvInput)
    (rest : List LoopIter) :
    runLoop listener st (⟨true, batch⟩ :: rest)
      = ((runLoop listener (processBatch listener st batch).1 rest).1,
         (processBatch listener st batch).2
           ++ (runLoop listener (processBatch listener st batch).1 rest).2) := rfl

/-- Unfolding equation for a loop iteration that observes the stop flag. -/
theorem runLoop_cons_false (listener : Nat) (st : ServerSt) (batch : List EvInput)
    (rest : List LoopIter) :
    runLoop listener st (⟨false, batch⟩ :: rest) = (st, []) := rfl

/-- The dispatch loop keeps the registry a sublist of the initial registry
followed by the accepted fds of the whole run trace, in acceptance order. -/
theorem runLoop_registry_sublist (listener : Nat) (script : List LoopIter) :
    ∀ st : ServerSt,
      List.Sublist (runLoop listener st script).1.client_fd_list
        (st.client_fd_list ++ acceptedOf (runLoop listener st script).2) := by
  induction script with
  | nil =>
    intro st
    simpa [runLoop, acceptedOf] using List.Sublist.refl st.client_fd_list
  | cons it rest ih =>
    intro st
    obtain ⟨running, batch⟩ := it
    cases running with
    | false =>
      simpa [runLoop_cons_false, acceptedOf] using List.Sublist.refl st.client_fd_list
    | true =>
      have h1 := processBatch_registry_sublist listener batch st
      have h2 := ih (processBatch listener st batch).1
      rw [runLoop_cons_true]
      simp only
      rw [acceptedOf_append, ← List.append_assoc]
      exact h2.trans (List.Sublist.append_right h1 _)

/-- C9: the fan-out recipient sequence of a broadcast is exactly the registry
vector filtered of the sender, in the vector's element order — deterministic
for a fixed registry state — and the registry vector itself is always an
order-preserving sublist of the initial registry followed by the accepted fds
in acceptance order, so the vector order is the insertion (accept) order. -/
theorem C9_fanout_order (listener fd : Nat) (st st0 : ServerSt) (bs : List Nat)
    (rdhup : Bool) (aenv : AcceptEnv) (script : List LoopIter)
    (hfd : fd ≠ listener)
    (hq : ¬ (bs.length = 6 ∧ bs.take 4 = quitBytes)) :
    ((dispatchEvent listener st
        ⟨fd, ⟨false, false, rdhup, true⟩, some bs, aenv⟩).2.filterMap writeTarget
      = st.client_fd_list.filter (fun c => c ≠ fd)) ∧
    (List.Sublist (runLoop listener st0 script).1.client_fd_list
      (st0.client_fd_list ++ acceptedOf (runLoop listener st0 script).2)) := by
  constructor
  · rw [dispatch_broadcast_eq listener fd st bs rdhup aenv hfd hq]
    exact filterMap_writeTarget_map _ bs
  · exact runLoop_registry_sublist listener script st0

/-- C9 witness: concrete broadcast order and a concrete run accepting fd 7
after starting from registry `[4, 5]`. -/
theorem C9_fanout_order_witness :
    ((dispatchEvent 3 ⟨[4, 5, 6], []⟩
        ⟨5, ⟨false, false, false, true⟩, some [104], ⟨true, true⟩⟩).2.filterMap writeTarget
      = ([4, 5, 6] : List Nat).filter (fun c => c ≠ 5)) ∧
    (List.Sublist (runLoop 3 ⟨[4, 5], [7]⟩
        [⟨true, [⟨3, ⟨false, false, false, true⟩, none, ⟨true, true⟩⟩]⟩]).1.client_fd_list
      ([4, 5] ++ acceptedOf (runLoop 3 ⟨[4, 5], [7]⟩
        [⟨true, [⟨3, ⟨false, false, false, true⟩, none, ⟨true, true⟩⟩]⟩]).2)) :=
  C9_fanout_order 3 5 ⟨[4, 5, 6], []⟩ ⟨[4, 5], [7]⟩ [104] false ⟨true, true⟩
    [⟨true, [⟨3, ⟨false, false, false, true⟩, none, ⟨true, true⟩⟩]⟩]
    (by decide) (by decide)

end TcpEpollServer
